import Mathlib

/-!
Shallow embedding of the backtest simulation core
(`src/backtest/core/portfolio/position_tracker.py`,
`src/backtest/core/portfolio/risk_manager.py`,
`src/backtest/core/execution/order_manager.py`,
`src/backtest/core/execution/slippage_simulator.py`).

Python floats are modelled as rationals (ℚ), dicts keyed by symbol as
association lists in insertion order, and the wall clock
(`pd.Timestamp.now()`) as an explicit `now : Nat` argument.  Mutable
objects (orders aliased between the caller and the manager's list) are
modelled by a heap: an indexed store of orders, with the manager's
`orders` list holding indices into it.  The random draw of
`np.random.normal` in the slippage model is an explicit parameter.
-/

namespace Backtest

/-- `Position` dataclass from `position_tracker.py`. -/
structure Position where
  symbol : String
  side : String
  entry_price : ℚ
  size : ℚ
  entry_time : Nat
  sl_price : Option ℚ := none
  tp_price : Option ℚ := none
deriving DecidableEq, Repr

/-- Trade-history entries: `open_position` appends an OPEN dict, and
`close_position` appends a CLOSE dict, with the key sets used in the
source. -/
inductive TradeRecord where
  | opened (symbol side : String) (price size : ℚ) (timestamp : Nat)
  | closed (symbol side : String) (entry_price exit_price size pnl : ℚ)
      (reason : String) (timestamp : Nat)
deriving DecidableEq, Repr

/-- State of `PositionTracker`. -/
structure PositionTracker where
  positions : List (String × Position)
  initial_balance : ℚ
  cash : ℚ
  equity_history : List ℚ
  trade_history : List TradeRecord
deriving DecidableEq, Repr

/-- `PositionTracker.__init__`. -/
def mkPositionTracker (initial_balance : ℚ := 10000) : PositionTracker :=
  { positions := []
    initial_balance := initial_balance
    cash := initial_balance
    equity_history := []
    trade_history := [] }

/-- Dict lookup `self.positions.get(symbol)` on the association list. -/
def lookupPos (ps : List (String × Position)) (symbol : String) : Option Position :=
  (ps.find? (fun p => p.1 = symbol)).map Prod.snd

/-- Dict assignment `self.positions[symbol] = position`: replace in place if
the key is present (keeping insertion order), otherwise append. -/
def insertPos (ps : List (String × Position)) (symbol : String) (pos : Position) :
    List (String × Position) :=
  if ps.any (fun p => p.1 = symbol) then
    ps.map (fun p => if p.1 = symbol then (symbol, pos) else p)
  else
    ps ++ [(symbol, pos)]

/-- Dict deletion `del self.positions[symbol]`. -/
def erasePos (ps : List (String × Position)) (symbol : String) :
    List (String × Position) :=
  ps.filter (fun p => p.1 ≠ symbol)

/-- `PositionTracker.has_position`. -/
def has_position (t : PositionTracker) (symbol : String) : Bool :=
  (lookupPos t.positions symbol).isSome

/-- `PositionTracker.get_position`. -/
def get_position (t : PositionTracker) (symbol : String) : Option Position :=
  lookupPos t.positions symbol

/-- `PositionTracker.open_position`: builds the Position, stores it under
`symbol` (dict assignment: replaces any existing entry), debits
`cash` by `price*size`, appends an OPEN trade record.  There is no
duplicate-position check in the source. -/
def open_position (t : PositionTracker) (symbol side : String) (price size : ℚ)
    (sl tp : Option ℚ) (now : Nat) : Position × PositionTracker :=
  let position : Position :=
    { symbol := symbol, side := side, entry_price := price, size := size
      entry_time := now, sl_price := sl, tp_price := tp }
  (position,
    { t with
      positions := insertPos t.positions symbol position
      cash := t.cash - price * size
      trade_history := t.trade_history ++
        [TradeRecord.opened symbol side price size now] })

/-- `PositionTracker.close_position`: returns `none` and leaves the state
unchanged when no position exists; otherwise computes the realized
P&L by side, credits `cash` with entry notional plus P&L, appends a
CLOSE trade record and removes the position. -/
def close_position (t : PositionTracker) (symbol : String) (exit_price : ℚ)
    (reason : String) (now : Nat) : Option TradeRecord × PositionTracker :=
  match lookupPos t.positions symbol with
  | none => (none, t)
  | some position =>
      let pnl :=
        if position.side = "BUY" then
          (exit_price - position.entry_price) * position.size
        else
          (position.entry_price - exit_price) * position.size
      let tr := TradeRecord.closed symbol position.side position.entry_price
        exit_price position.size pnl reason now
      (some tr,
        { t with
          cash := t.cash + position.entry_price * position.size + pnl
          trade_history := t.trade_history ++ [tr]
          positions := erasePos t.positions symbol })

/-- Unrealized P&L contribution of a single position at a current price. -/
def positionPnl (position : Position) (current_price : ℚ) : ℚ :=
  if position.side = "BUY" then
    (current_price - position.entry_price) * position.size
  else
    (position.entry_price - current_price) * position.size

/-- `current_prices.get(symbol, position.entry_price)`. -/
def priceFor (current_prices : List (String × ℚ)) (symbol : String)
    (fallback : ℚ) : ℚ :=
  ((current_prices.find? (fun q => q.1 = symbol)).map Prod.snd).getD fallback

/-- `PositionTracker.update_equity`: accumulates unrealized P&L over the open
positions (falling back to the entry price for a symbol missing from
`current_prices`), appends `cash + unrealized` to `equity_history`, and
returns it. -/
def update_equity (t : PositionTracker) (current_prices : List (String × ℚ)) :
    ℚ × PositionTracker :=
  let unrealized_pnl := t.positions.foldl
    (fun acc p => acc + positionPnl p.2 (priceFor current_prices p.1 p.2.entry_price)) 0
  let current_equity := t.cash + unrealized_pnl
  (current_equity, { t with equity_history := t.equity_history ++ [current_equity] })

/-- `PositionTracker.get_total_equity`: last element of `equity_history`,
or `initial_balance` when the history is empty. -/
def get_total_equity (t : PositionTracker) : ℚ :=
  (t.equity_history.getLast?).getD t.initial_balance

/-- `RiskManager.__init__` parameters (defaults from the source). -/
structure RiskManager where
  max_position_size : ℚ := 1/10
  max_daily_loss : ℚ := 1/50
  risk_per_trade : ℚ := 1/100
  volatility_lookback : Nat := 20
deriving DecidableEq, Repr

/-- `RiskManager.calculate_position_size`: equity read from the portfolio;
returns 0 on zero stop distance, otherwise the risk-based size capped
by the portfolio-fraction size, floored at 0. -/
def calculate_position_size (rm : RiskManager) (portfolio : PositionTracker)
    (entry_price stop_loss : ℚ) (symbol : String) : ℚ :=
  let portfolio_equity := get_total_equity portfolio
  let risk_amount := portfolio_equity * rm.risk_per_trade
  let stop_distance := |entry_price - stop_loss|
  if stop_distance = 0 then 0
  else
    let base_size := risk_amount / stop_distance
    let max_size_by_portfolio := portfolio_equity * rm.max_position_size / entry_price
    let position_size := min base_size max_size_by_portfolio
    max position_size 0

/-- The `validation` dict built by `RiskManager.validate_trade`.  The
source formats the reason strings with f-string interpolation; only
their presence matters here, so fixed texts stand in for them. -/
structure Validation where
  is_valid : Bool
  reasons : List String
  adjusted_size : ℚ
deriving DecidableEq, Repr

/-- `RiskManager.validate_trade`: three sequential checks, each flipping
`is_valid` to false and appending a reason; the size-cap check also
overwrites `adjusted_size`. -/
def validate_trade (rm : RiskManager) (portfolio : PositionTracker)
    (symbol : String) (size price : ℚ) : Validation :=
  let v0 : Validation := { is_valid := true, reasons := [], adjusted_size := size }
  let equity := get_total_equity portfolio
  let position_value := size * price
  let v1 :=
    if equity * rm.max_position_size < position_value then
      { is_valid := false
        reasons := v0.reasons ++ ["position size exceeds max"]
        adjusted_size := equity * rm.max_position_size / price }
    else v0
  let v2 :=
    if has_position portfolio symbol then
      { v1 with is_valid := false
                reasons := v1.reasons ++ ["already in position"] }
    else v1
  if 1 < portfolio.equity_history.length then
    let daily_return :=
      (portfolio.equity_history.getLast?).getD 0 /
        (portfolio.equity_history.dropLast.getLast?).getD 0 - 1
    if daily_return < -rm.max_daily_loss then
      { v2 with is_valid := false
                reasons := v2.reasons ++ ["daily loss exceeds limit"] }
    else v2
  else v2

/-- Order statuses (`order_manager.py`: PENDING, FILLED, CANCELLED, REJECTED). -/
inductive OrderStatus where
  | PENDING
  | FILLED
  | CANCELLED
  | REJECTED
deriving DecidableEq, Repr

/-- `Order` dataclass from `order_manager.py`. -/
structure Order where
  symbol : String
  side : String
  order_type : String
  size : ℚ
  price : Option ℚ := none
  sl_price : Option ℚ := none
  tp_price : Option ℚ := none
  status : OrderStatus := OrderStatus.PENDING
deriving DecidableEq, Repr

/-- `SlippageSimulator.__init__` parameters (defaults from the source). -/
structure SlippageSimulator where
  base_slippage : ℚ := 5/100000
  volatility_factor : ℚ := 2
  latency_ms : Nat := 100
  spread_ratio : ℚ := 1/10000
deriving DecidableEq, Repr

/-- `SlippageSimulator.apply_slippage`.  The draw of
`np.random.normal(0, volatility_factor*0.0001)` is passed in as
`volatility_component`; the source takes its absolute value.  The result
is floored at the epsilon 0.00001. -/
def apply_slippage (sim : SlippageSimulator) (order : Order)
    (current_price : ℚ) (volatility_component : ℚ) : ℚ :=
  let slippage := sim.base_slippage + min (order.size / 100000) (1/1000) +
    |volatility_component|
  let spread_cost := sim.spread_ratio / 2
  let executed_price :=
    if order.side = "BUY" then current_price + slippage + spread_cost
    else current_price - slippage - spread_cost
  max executed_price (1/100000)

/-- Result of `OrderManager.execute_order`: either the failure dict
`{success: False, reason}` or the fill dict appended to
`filled_orders`. -/
inductive ExecResult where
  | failure (reason : String)
  | fill (order_id : Nat) (symbol side : String)
      (size requested_price executed_price slippage : ℚ) (timestamp : Nat)
deriving DecidableEq, Repr

/-- State of `OrderManager`.  Python aliases `Order` objects between the
caller and `self.orders`; the heap models the object store (index =
object identity) and `orders` holds references into it. -/
structure OrderManager where
  heap : List Order
  orders : List Nat
  filled_orders : List ExecResult
deriving DecidableEq, Repr

/-- `OrderManager.__init__` (empty store). -/
def mkOrderManager : OrderManager :=
  { heap := [], orders := [], filled_orders := [] }

/-- Dereference an order id. -/
def getOrder (m : OrderManager) (oid : Nat) : Option Order :=
  m.heap.get? oid

/-- Overwrite the order object at `oid` (in-place mutation of the aliased
object). -/
def setOrder (m : OrderManager) (oid : Nat) (o : Order) : OrderManager :=
  { m with heap := m.heap.set oid o }

/-- `OrderManager.create_order`: allocates a fresh PENDING order and
appends it to `self.orders`. -/
def create_order (m : OrderManager) (symbol side : String) (size : ℚ)
    (order_type : String := "MARKET") (price : Option ℚ := none)
    (sl : Option ℚ := none) (tp : Option ℚ := none) : Nat × OrderManager :=
  let order : Order :=
    { symbol := symbol, side := side, order_type := order_type, size := size
      price := price, sl_price := sl, tp_price := tp }
  let oid := m.heap.length
  (oid, { m with heap := m.heap ++ [order], orders := m.orders ++ [oid] })

/-- Boolean test that the order the id points to is PENDING (the filter
predicate of `execute_order`). -/
def refPending (m : OrderManager) (oid : Nat) : Bool :=
  ((getOrder m oid).map (fun o => decide (o.status = OrderStatus.PENDING))).getD false

/-- `OrderManager.execute_order`: rejects any non-PENDING order without
touching it; otherwise applies slippage when a simulator is present,
mutates the order to FILLED with the executed price, appends a fill
record, and rebuilds `self.orders` keeping only PENDING orders. -/
def execute_order (sim : Option SlippageSimulator) (m : OrderManager) (oid : Nat)
    (current_price volatility_component : ℚ) (now : Nat) :
    ExecResult × OrderManager :=
  match getOrder m oid with
  | none => (ExecResult.failure "Order already processed", m)
  | some order =>
      if order.status ≠ OrderStatus.PENDING then
        (ExecResult.failure "Order already processed", m)
      else
        let executed_price :=
          match sim with
          | some s => apply_slippage s order current_price volatility_component
          | none => current_price
        let order' := { order with status := OrderStatus.FILLED
                                   price := some executed_price }
        let fill := ExecResult.fill oid order.symbol order.side order.size
          current_price executed_price (executed_price - current_price) now
        let m' := setOrder m oid order'
        (fill,
          { m' with filled_orders := m'.filled_orders ++ [fill]
                    orders := m'.orders.filter (refPending m') })

/-- `OrderManager.cancel_order`: transitions a PENDING order to CANCELLED
and removes it from `self.orders`; returns false for any other status. -/
def cancel_order (m : OrderManager) (oid : Nat) : Bool × OrderManager :=
  match getOrder m oid with
  | none => (false, m)
  | some order =>
      if order.status = OrderStatus.PENDING then
        let m' := setOrder m oid { order with status := OrderStatus.CANCELLED }
        (true, { m' with orders := m'.orders.erase oid })
      else (false, m)

/-- `OrderManager.get_pending_orders`. -/
def get_pending_orders (m : OrderManager) : List Order :=
  (m.orders.filterMap (getOrder m)).filter
    (fun order => decide (order.status = OrderStatus.PENDING))

/-- One call on an `OrderManager` (for reasoning about call sequences). -/
inductive OMOp where
  | create (symbol side : String) (size : ℚ) (order_type : String)
      (price sl tp : Option ℚ)
  | execute (oid : Nat) (current_price volatility_component : ℚ) (now : Nat)
  | cancel (oid : Nat)

/-- Apply one call, discarding the return value. -/
def applyOp (sim : Option SlippageSimulator) (m : OrderManager) : OMOp → OrderManager
  | OMOp.create symbol side size order_type price sl tp =>
      (create_order m symbol side size order_type price sl tp).2
  | OMOp.execute oid cp vc now => (execute_order sim m oid cp vc now).2
  | OMOp.cancel oid => (cancel_order m oid).2

/-- Run a sequence of calls from a starting state. -/
def runOps (sim : Option SlippageSimulator) (m : OrderManager) : List OMOp → OrderManager
  | [] => m
  | op :: ops => runOps sim (applyOp sim m op) ops

/-- Invariant of `OrderManager`: the ids in `self.orders` are distinct and
every one of them references a PENDING order in the store. -/
def OMInv (m : OrderManager) : Prop :=
  m.orders.Nodup ∧
  ∀ oid ∈ m.orders, ∃ o, getOrder m oid = some o ∧ o.status = OrderStatus.PENDING

/-- Spec-side formulation of the total unrealized P&L: a sum over the open
positions of the per-position P&L at the current (or fallback) price. -/
def specUnrealizedPnl (t : PositionTracker) (current_prices : List (String × ℚ)) : ℚ :=
  (t.positions.map
    (fun p => positionPnl p.2 (priceFor current_prices p.1 p.2.entry_price))).sum

/-- A concrete BUY market order used in examples. -/
def orderBuyEx : Order :=
  { symbol := "EURUSD", side := "BUY", order_type := "MARKET", size := 1000 }

/-- A concrete SELL market order used in examples. -/
def orderSellEx : Order :=
  { symbol := "EURUSD", side := "SELL", order_type := "MARKET", size := 0 }

/-- A concrete already-filled order used in examples. -/
def orderFilledEx : Order :=
  { symbol := "EURUSD", side := "BUY", order_type := "MARKET", size := 1000
    status := OrderStatus.FILLED }

/-- A manager whose store holds one filled order, used in examples. -/
def managerFilledEx : OrderManager :=
  { heap := [orderFilledEx], orders := [], filled_orders := [] }

/-! ## Helper lemmas -/

theorem lookupPos_map_replace (ps : List (String × Position)) (s : String)
    (p : Position) (h : ps.any (fun q => q.1 = s) = true) :
    lookupPos (ps.map (fun q => if q.1 = s then (s, p) else q)) s = some p := by
  induction ps with
  | nil => simp at h
  | cons hd tl ih =>
      by_cases hk : hd.1 = s
      · simp only [List.map_cons, if_pos hk, lookupPos]
        rw [List.find?_cons_of_pos _ (by simp)]
        rfl
      · simp only [List.any_cons, Bool.or_eq_true, decide_eq_true_eq] at h
        rcases h with h | h
        · exact absurd h hk
        · have := ih h
          simp only [List.map_cons, if_neg hk, lookupPos] at this ⊢
          rwa [List.find?_cons_of_neg _ (by simpa using hk)]

theorem lookupPos_append_single (ps : List (String × Position)) (s : String)
    (p : Position) (h : ps.any (fun q => q.1 = s) = false) :
    lookupPos (ps ++ [(s, p)]) s = some p := by
  induction ps with
  | nil =>
      simp only [List.nil_append, lookupPos]
      rw [List.find?_cons_of_pos _ (by simp)]
      rfl
  | cons hd tl ih =>
      simp only [List.any_cons, Bool.or_eq_false_iff, decide_eq_false_iff_not] at h
      have := ih (by simpa using h.2)
      simp only [List.cons_append, lookupPos] at this ⊢
      rwa [List.find?_cons_of_neg _ (by simpa using h.1)]

/-- Dict assignment followed by lookup of the same key returns the new value. -/
theorem lookupPos_insertPos (ps : List (String × Position)) (s : String) (p : Position) :
    lookupPos (insertPos ps s p) s = some p := by
  unfold insertPos
  by_cases h : ps.any (fun q => q.1 = s) = true
  · rw [if_pos h]
    exact lookupPos_map_replace ps s p h
  · rw [if_neg h]
    exact lookupPos_append_single ps s p (Bool.eq_false_iff.mpr h)

theorem foldl_add_eq_sum {α : Type} (f : α → ℚ) (l : List α) (c : ℚ) :
    l.foldl (fun acc p => acc + f p) c = c + (l.map f).sum := by
  induction l generalizing c with
  | nil => simp
  | cons hd tl ih => simp [ih, add_assoc]

/-! ## Claim theorems -/

/-- C1 counterexample: the claim states that a second `open_position` for a
symbol already holding a position fails with `DuplicatePositionError` and
leaves the existing position in place.  In the source there is no such
check: starting from a fresh tracker, opening EURUSD and then opening
EURUSD again yields a state whose position map holds exactly the second
position — the call succeeded and the first position was replaced. -/
theorem open_position_duplicate_cex :
    has_position (open_position (mkPositionTracker 10000) "EURUSD" "BUY" (6/5) 1000
      none none 0).2 "EURUSD" = true
    ∧ (open_position (open_position (mkPositionTracker 10000) "EURUSD" "BUY" (6/5) 1000
        none none 0).2 "EURUSD" "SELL" (13/10) 500 none none 1).2.positions =
      [("EURUSD",
        { symbol := "EURUSD", side := "SELL", entry_price := 13/10, size := 500
          entry_time := 1 })] := by
  constructor
  · rfl
  · rfl

/-- C1 (amended): a second `open_position` for a symbol that already has a
position does not fail; it returns a new position built from the
arguments, stores it under the symbol (replacing the existing one), and
debits `cash` by `price*size` again. -/
theorem open_position_duplicate_replaces (t : PositionTracker) (symbol side : String)
    (price size : ℚ) (sl tp : Option ℚ) (now : Nat)
    (h : has_position t symbol = true) :
    (open_position t symbol side price size sl tp now).1 =
      { symbol := symbol, side := side, entry_price := price, size := size
        entry_time := now, sl_price := sl, tp_price := tp }
    ∧ lookupPos (open_position t symbol side price size sl tp now).2.positions symbol =
      some (open_position t symbol side price size sl tp now).1
    ∧ (open_position t symbol side price size sl tp now).2.cash = t.cash - price * size := by
  exact ⟨rfl, lookupPos_insertPos _ _ _, rfl⟩

/-- C1 witness: instantiation of the amended theorem on a tracker that
already holds a EURUSD position. -/
theorem open_position_duplicate_replaces_witness :
    has_position (open_position (mkPositionTracker 10000) "EURUSD" "BUY" (6/5) 1000
      none none 0).2 "EURUSD" = true
    ∧ ((open_position (open_position (mkPositionTracker 10000) "EURUSD" "BUY" (6/5) 1000
          none none 0).2 "EURUSD" "SELL" (13/10) 500 none none 1).1 =
        ({ symbol := "EURUSD", side := "SELL", entry_price := 13/10, size := 500
           entry_time := 1, sl_price := none, tp_price := none } : Position)
      ∧ lookupPos (open_position (open_position (mkPositionTracker 10000) "EURUSD" "BUY"
          (6/5) 1000 none none 0).2 "EURUSD" "SELL" (13/10) 500 none none 1).2.positions
          "EURUSD" =
        some (open_position (open_position (mkPositionTracker 10000) "EURUSD" "BUY" (6/5)
          1000 none none 0).2 "EURUSD" "SELL" (13/10) 500 none none 1).1
      ∧ (open_position (open_position (mkPositionTracker 10000) "EURUSD" "BUY" (6/5) 1000
          none none 0).2 "EURUSD" "SELL" (13/10) 500 none none 1).2.cash =
        (open_position (mkPositionTracker 10000) "EURUSD" "BUY" (6/5) 1000
          none none 0).2.cash - (13/10) * 500) :=
  ⟨by decide, open_position_duplicate_replaces _ "EURUSD" "SELL" (13/10) 500 none none 1
    (by decide)⟩

/-- C2: `calculate_position_size` computes, at the portfolio's current
equity, 0 when the stop distance is zero and otherwise the risk-based
size `equity*risk_per_trade/stop_distance` capped by
`equity*max_position_size/entry_price` and floored at 0; on the worked
example (equity 10000, entry 1.2, stop 1.19, defaults) it produces
2500/3 ≈ 833.33, the capped value. -/
theorem calculate_position_size_spec (rm : RiskManager) (portfolio : PositionTracker)
    (entry_price stop_loss : ℚ) (symbol : String) (h : 0 < entry_price) :
    (calculate_position_size rm portfolio entry_price stop_loss symbol =
      if |entry_price - stop_loss| = 0 then 0
      else
        max (min (get_total_equity portfolio * rm.risk_per_trade / |entry_price - stop_loss|)
          (get_total_equity portfolio * rm.max_position_size / entry_price)) 0)
    ∧ calculate_position_size {} (mkPositionTracker 10000) (6/5) (119/100) "EURUSD" = 2500/3
    ∧ |calculate_position_size {} (mkPositionTracker 10000) (6/5) (119/100) "EURUSD"
        - 8333/10| < 1/10 := by
  have hd : |(6:ℚ)/5 - 119/100| = 1/100 := by
    rw [show (6:ℚ)/5 - 119/100 = 1/100 by norm_num, abs_of_pos (by norm_num)]
  have hex : calculate_position_size {} (mkPositionTracker 10000) (6/5) (119/100)
      "EURUSD" = 2500/3 := by
    unfold calculate_position_size
    rw [hd, if_neg (by norm_num)]
    simp only [get_total_equity, mkPositionTracker, List.getLast?]
    norm_num [min_def, max_def]
  refine ⟨rfl, hex, ?_⟩
  rw [hex, show (2500:ℚ)/3 - 8333/10 = 1/30 by norm_num, abs_of_pos (by norm_num)]
  norm_num

/-- C2 witness: the theorem applied at the worked example's inputs. -/
theorem calculate_position_size_spec_witness :
    (0 : ℚ) < 6/5
    ∧ ((calculate_position_size {} (mkPositionTracker 10000) (6/5) (119/100) "GBPUSD" =
        if |(6:ℚ)/5 - 119/100| = 0 then 0
        else
          max (min (get_total_equity (mkPositionTracker 10000) *
              RiskManager.risk_per_trade {} / |(6:ℚ)/5 - 119/100|)
            (get_total_equity (mkPositionTracker 10000) *
              RiskManager.max_position_size {} / (6/5))) 0)
      ∧ calculate_position_size {} (mkPositionTracker 10000) (6/5) (119/100) "EURUSD" = 2500/3
      ∧ |calculate_position_size {} (mkPositionTracker 10000) (6/5) (119/100) "EURUSD"
          - 8333/10| < 1/10) :=
  ⟨by norm_num, calculate_position_size_spec {} (mkPositionTracker 10000) (6/5) (119/100)
    "GBPUSD" (by norm_num)⟩

/-- C3: opening a position and then closing it (no slippage or fees exist
in the tracker) leaves `cash` equal to the pre-open cash plus the
realized P&L — `(exit−entry)*size` for a BUY (long), `(entry−exit)*size`
otherwise — and on the worked example (long 1000 at 1.20 closed at 1.21)
cash grows by exactly 10 over the pre-open cash. -/
theorem cash_conservation_round_trip :
    (∀ (t : PositionTracker) (symbol side : String) (price size exit_price : ℚ)
      (sl tp : Option ℚ) (reason : String) (t1 t2 : Nat),
      (close_position (open_position t symbol side price size sl tp t1).2 symbol
          exit_price reason t2).2.cash =
        t.cash + (if side = "BUY" then (exit_price - price) * size
                  else (price - exit_price) * size))
    ∧ (close_position (open_position (mkPositionTracker 10000) "EURUSD" "BUY" (6/5) 1000
        none none 0).2 "EURUSD" (121/100) "MANUAL" 1).2.cash =
      (mkPositionTracker 10000).cash + 10 := by
  have hgen : ∀ (t : PositionTracker) (symbol side : String)
      (price size exit_price : ℚ) (sl tp : Option ℚ) (reason : String) (t1 t2 : Nat),
      (close_position (open_position t symbol side price size sl tp t1).2 symbol
          exit_price reason t2).2.cash =
        t.cash + (if side = "BUY" then (exit_price - price) * size
                  else (price - exit_price) * size) := by
    intro t symbol side price size exit_price sl tp reason t1 t2
    have hlook := lookupPos_insertPos t.positions symbol
      { symbol := symbol, side := side, entry_price := price, size := size
        entry_time := t1, sl_price := sl, tp_price := tp }
    simp only [open_position, close_position, hlook]
    split_ifs <;> ring
  refine ⟨hgen, ?_⟩
  rw [hgen (mkPositionTracker 10000) "EURUSD" "BUY" (6/5) 1000 (121/100) none none
    "MANUAL" 0 1]
  norm_num

/-- C7: `close_position` on a symbol with no open position returns `none`
and the state (cash, positions, equity history, trade history) is
returned unchanged. -/
theorem close_position_no_position_noop (t : PositionTracker) (symbol : String)
    (exit_price : ℚ) (reason : String) (now : Nat)
    (h : has_position t symbol = false) :
    close_position t symbol exit_price reason now = (none, t) := by
  unfold close_position
  cases hl : lookupPos t.positions symbol with
  | none => rfl
  | some p =>
      unfold has_position at h
      rw [hl] at h
      simp at h

/-- C7 witness: closing EURUSD on a fresh tracker (no positions) is a no-op. -/
theorem close_position_no_position_noop_witness :
    has_position (mkPositionTracker 10000) "EURUSD" = false
    ∧ close_position (mkPositionTracker 10000) "EURUSD" 1 "MANUAL" 0 =
      (none, mkPositionTracker 10000) :=
  ⟨by decide, close_position_no_position_noop _ "EURUSD" 1 "MANUAL" 0 (by decide)⟩

/-- C8 counterexample: the claim asserts non-increase in stop distance for
all distances d1 ≤ d2 with d1, d2 ≥ 0.  At d1 = 0 the source returns 0
(the zero-distance guard), while at d2 = 1/100 it returns 2500/3 > 0, so
the size at the larger distance exceeds the size at the smaller one. -/
theorem calculate_position_size_monotone_cex :
    ¬ (calculate_position_size {} (mkPositionTracker 10000) (6/5) (6/5 - 1/100) "EURUSD" ≤
       calculate_position_size {} (mkPositionTracker 10000) (6/5) (6/5) "EURUSD") := by
  have h1 : calculate_position_size {} (mkPositionTracker 10000) (6/5) (6/5) "EURUSD"
      = 0 := by
    unfold calculate_position_size
    rw [if_pos (by rw [sub_self, abs_zero])]
  have h2 : calculate_position_size {} (mkPositionTracker 10000) (6/5) (6/5 - 1/100)
      "EURUSD" = 2500/3 := by
    have hd : |(6:ℚ)/5 - (6/5 - 1/100)| = 1/100 := by
      rw [show (6:ℚ)/5 - (6/5 - 1/100) = 1/100 by ring, abs_of_pos (by norm_num)]
    unfold calculate_position_size
    rw [hd, if_neg (by norm_num)]
    simp only [get_total_equity, mkPositionTracker, List.getLast?]
    norm_num [min_def, max_def]
  rw [h1, h2]
  norm_num

/-- C8 (amended): for a strictly positive smaller distance, the size is
non-increasing in the stop distance: for 0 < d1 ≤ d2 (fixed equity,
risk fraction, cap fraction and entry price), the size at distance d2 is
at most the size at distance d1.  (At d1 = 0 the zero-distance guard
returns 0 and the property fails, per the counterexample.) -/
theorem calculate_position_size_antitone (rm : RiskManager) (portfolio : PositionTracker)
    (entry_price d1 d2 : ℚ) (symbol : String) (h1 : 0 < d1) (h12 : d1 ≤ d2) :
    calculate_position_size rm portfolio entry_price (entry_price - d2) symbol ≤
      calculate_position_size rm portfolio entry_price (entry_price - d1) symbol := by
  have h2 : 0 < d2 := lt_of_lt_of_le h1 h12
  have e1 : |entry_price - (entry_price - d1)| = d1 := by
    rw [sub_sub_cancel, abs_of_pos h1]
  have e2 : |entry_price - (entry_price - d2)| = d2 := by
    rw [sub_sub_cancel, abs_of_pos h2]
  unfold calculate_position_size
  rw [e1, e2, if_neg (ne_of_gt h1), if_neg (ne_of_gt h2)]
  rcases le_or_lt (get_total_equity portfolio * rm.risk_per_trade) 0 with hr | hr
  · have l1 : get_total_equity portfolio * rm.risk_per_trade / d1 ≤ 0 :=
      div_nonpos_iff.mpr (Or.inr ⟨hr, le_of_lt h1⟩)
    have l2 : get_total_equity portfolio * rm.risk_per_trade / d2 ≤ 0 :=
      div_nonpos_iff.mpr (Or.inr ⟨hr, le_of_lt h2⟩)
    rw [max_eq_right (le_trans (min_le_left _ _) l2),
        max_eq_right (le_trans (min_le_left _ _) l1)]
  · have hdiv : get_total_equity portfolio * rm.risk_per_trade / d2 ≤
        get_total_equity portfolio * rm.risk_per_trade / d1 :=
      div_le_div_of_nonneg_left (le_of_lt hr) h1 h12
    exact max_le_max (min_le_min hdiv le_rfl) le_rfl

/-- C8 witness: the amended theorem at distances 1/100 ≤ 1/50. -/
theorem calculate_position_size_antitone_witness :
    ((0:ℚ) < 1/100 ∧ (1:ℚ)/100 ≤ 1/50)
    ∧ calculate_position_size {} (mkPositionTracker 10000) (6/5) (6/5 - 1/50) "EURUSD" ≤
      calculate_position_size {} (mkPositionTracker 10000) (6/5) (6/5 - 1/100) "EURUSD" :=
  ⟨⟨by norm_num, by norm_num⟩,
   calculate_position_size_antitone {} (mkPositionTracker 10000) (6/5) (1/100) (1/50)
     "EURUSD" (by norm_num) (by norm_num)⟩

/-- C5: whenever the proposed notional `size*price` strictly exceeds
`equity*max_position_size`, `validate_trade` reports the trade invalid
and suggests the adjusted size `equity*max_position_size/price`,
regardless of the outcome of the later duplicate-position and
daily-loss checks. -/
theorem validate_trade_cap (rm : RiskManager) (portfolio : PositionTracker)
    (symbol : String) (size price : ℚ)
    (h : get_total_equity portfolio * rm.max_position_size < size * price) :
    (validate_trade rm portfolio symbol size price).is_valid = false
    ∧ (validate_trade rm portfolio symbol size price).adjusted_size =
      get_total_equity portfolio * rm.max_position_size / price := by
  simp only [validate_trade]
  rw [if_pos h]
  split_ifs <;> exact ⟨rfl, rfl⟩

/-- C5 witness: size 10000 at price 1 against equity 10000 and the default
10% cap. -/
theorem validate_trade_cap_witness :
    get_total_equity (mkPositionTracker 10000) * RiskManager.max_position_size {} <
      10000 * 1
    ∧ ((validate_trade {} (mkPositionTracker 10000) "EURUSD" 10000 1).is_valid = false
      ∧ (validate_trade {} (mkPositionTracker 10000) "EURUSD" 10000 1).adjusted_size =
        get_total_equity (mkPositionTracker 10000) * RiskManager.max_position_size {} / 1) :=
  ⟨by show (10000:ℚ) * (1/10) < 10000 * 1; norm_num,
   validate_trade_cap {} (mkPositionTracker 10000) "EURUSD" 10000 1
     (by show (10000:ℚ) * (1/10) < 10000 * 1; norm_num)⟩

/-- C4 counterexample: the claim asserts both `executed ≤ reference` for
every SELL order and a positive epsilon floor.  These conflict for a
reference price below the floor: with default parameters, a SELL at
reference 1/200000 = 0.000005 executes at the floor 1/100000 = 0.00001,
strictly above the reference price. -/
theorem apply_slippage_sell_floor_cex :
    orderSellEx.side = "SELL"
    ∧ ¬ (apply_slippage {} orderSellEx (1/200000) 0 ≤ 1/200000) := by
  have hval : apply_slippage {} orderSellEx (1/200000) 0 = 1/100000 := by
    have hss : ¬ ("SELL" = "BUY") := by decide
    unfold apply_slippage orderSellEx
    norm_num [min_def, max_def, hss]
  exact ⟨rfl, by rw [hval]; norm_num⟩

/-- C4 (amended): with non-negative slippage parameters and a non-negative
order size, a BUY always executes at or above the reference price; a
SELL executes at or below the reference price provided the reference is
at least the floor epsilon 1/100000 (below it, the floor may push the
executed price above the reference, per the counterexample); and the
executed price is always at least 1/100000 > 0. -/
theorem apply_slippage_adverse (sim : SlippageSimulator) (order : Order)
    (current_price volatility_component : ℚ)
    (hbase : 0 ≤ sim.base_slippage) (hspread : 0 ≤ sim.spread_ratio)
    (hsize : 0 ≤ order.size) :
    (order.side = "BUY" →
      current_price ≤ apply_slippage sim order current_price volatility_component)
    ∧ (order.side = "SELL" → 1/100000 ≤ current_price →
      apply_slippage sim order current_price volatility_component ≤ current_price)
    ∧ 1/100000 ≤ apply_slippage sim order current_price volatility_component := by
  have hmin : (0:ℚ) ≤ min (order.size / 100000) (1/1000) :=
    le_min (div_nonneg hsize (by norm_num)) (by norm_num)
  have hslip : (0:ℚ) ≤ sim.base_slippage + min (order.size / 100000) (1/1000) +
      |volatility_component| :=
    add_nonneg (add_nonneg hbase hmin) (abs_nonneg _)
  have hsc : (0:ℚ) ≤ sim.spread_ratio / 2 := div_nonneg hspread (by norm_num)
  simp only [apply_slippage]
  refine ⟨?_, ?_, le_max_right _ _⟩
  · intro hside
    rw [if_pos hside]
    refine le_trans ?_ (le_max_left _ _)
    linarith
  · intro hside hcp
    rw [hside]
    rw [if_neg (by simp)]
    exact max_le (by linarith) hcp

/-- C4 witness: default parameters, a BUY of size 1000 at reference 6/5
with noise draw 1/10000. -/
theorem apply_slippage_adverse_witness :
    ((0:ℚ) ≤ SlippageSimulator.base_slippage {}
      ∧ (0:ℚ) ≤ SlippageSimulator.spread_ratio {}
      ∧ (0:ℚ) ≤ orderBuyEx.size)
    ∧ ((orderBuyEx.side = "BUY" →
        (6:ℚ)/5 ≤ apply_slippage {} orderBuyEx (6/5) (1/10000))
      ∧ (orderBuyEx.side = "SELL" → 1/100000 ≤ (6:ℚ)/5 →
        apply_slippage {} orderBuyEx (6/5) (1/10000) ≤ 6/5)
      ∧ (1:ℚ)/100000 ≤ apply_slippage {} orderBuyEx (6/5) (1/10000)) :=
  ⟨⟨by show (0:ℚ) ≤ 5/100000; norm_num, by show (0:ℚ) ≤ 1/10000; norm_num,
    by show (0:ℚ) ≤ 1000; norm_num⟩,
   apply_slippage_adverse {} orderBuyEx (6/5) (1/10000)
     (by show (0:ℚ) ≤ 5/100000; norm_num)
     (by show (0:ℚ) ≤ 1/10000; norm_num) (by show (0:ℚ) ≤ 1000; norm_num)⟩

/-- C9: `update_equity` appends exactly one value to `equity_history` — the
returned value, equal to `cash` plus the summed unrealized P&L of the
open positions (per-symbol current price, entry price if missing) —
leaving `cash` and `positions` unchanged; `get_total_equity` then
returns that appended value, and it returns the initial balance on any
state with an empty equity history. -/
theorem update_equity_spec :
    (∀ (t : PositionTracker) (current_prices : List (String × ℚ)),
      (update_equity t current_prices).2.equity_history =
        t.equity_history ++ [(update_equity t current_prices).1]
      ∧ (update_equity t current_prices).1 = t.cash + specUnrealizedPnl t current_prices
      ∧ (update_equity t current_prices).2.cash = t.cash
      ∧ (update_equity t current_prices).2.positions = t.positions
      ∧ get_total_equity (update_equity t current_prices).2 =
          (update_equity t current_prices).1)
    ∧ (∀ (ps : List (String × Position)) (ib c : ℚ) (th : List TradeRecord),
      get_total_equity
        { positions := ps, initial_balance := ib, cash := c,
          equity_history := [], trade_history := th } = ib) := by
  constructor
  · intro t current_prices
    refine ⟨rfl, ?_, rfl, rfl, ?_⟩
    · show t.cash + t.positions.foldl
        (fun acc p => acc + positionPnl p.2 (priceFor current_prices p.1 p.2.entry_price))
        0 = t.cash + specUnrealizedPnl t current_prices
      rw [foldl_add_eq_sum, zero_add]
      rfl
    · show ((t.equity_history ++ [(update_equity t current_prices).1]).getLast?).getD
        t.initial_balance = (update_equity t current_prices).1
      rw [List.getLast?_concat]
      rfl
  · intro ps ib c th
    rfl

/-- C6: an order in a terminal status (FILLED, CANCELLED or REJECTED) is
frozen: `execute_order` on it returns the failure result and the
manager state unchanged, `cancel_order` returns false and the state
unchanged; and in general each call either leaves an order's status
unchanged or moves it from PENDING to FILLED (execute) or from PENDING
to CANCELLED (cancel) — PENDING → {FILLED, CANCELLED} are the only
transitions, so terminal states are never left. -/
theorem order_terminal_frozen (sim : Option SlippageSimulator) (m : OrderManager)
    (oid : Nat) (o : Order) (cp vc : ℚ) (now : Nat)
    (hget : getOrder m oid = some o)
    (hterm : o.status = OrderStatus.FILLED ∨ o.status = OrderStatus.CANCELLED ∨
      o.status = OrderStatus.REJECTED) :
    execute_order sim m oid cp vc now = (ExecResult.failure "Order already processed", m)
    ∧ cancel_order m oid = (false, m)
    ∧ (∀ (n : OrderManager) (i : Nat) (o₁ o₂ : Order),
        getOrder n i = some o₁ →
        getOrder (execute_order sim n oid cp vc now).2 i = some o₂ →
        o₂.status = o₁.status ∨
          (o₁.status = OrderStatus.PENDING ∧ o₂.status = OrderStatus.FILLED))
    ∧ (∀ (n : OrderManager) (i : Nat) (o₁ o₂ : Order),
        getOrder n i = some o₁ →
        getOrder (cancel_order n oid).2 i = some o₂ →
        o₂.status = o₁.status ∨
          (o₁.status = OrderStatus.PENDING ∧ o₂.status = OrderStatus.CANCELLED)) := by
  have hnp : o.status ≠ OrderStatus.PENDING := by
    rcases hterm with h | h | h <;> rw [h] <;> intro hc <;> cases hc
  refine ⟨?_, ?_, ?_, ?_⟩
  · simp only [execute_order, hget]
    rw [if_pos hnp]
  · simp only [cancel_order, hget]
    rw [if_neg hnp]
  · intro n i o₁ o₂ h1 h2
    cases hc : getOrder n oid with
    | none =>
        simp only [execute_order, hc] at h2
        rw [h1] at h2
        exact Or.inl (by rw [Option.some_inj.mp h2])
    | some ord =>
        by_cases hp : ord.status = OrderStatus.PENDING
        · simp only [execute_order, hc, if_neg (not_not_intro hp)] at h2
          by_cases hio : i = oid
          · subst hio
            rw [h1] at hc
            have ho₁ : o₁ = ord := Option.some_inj.mp hc
            simp only [getOrder, setOrder, List.get?_set_eq] at h2
            rw [show n.heap.get? i = some o₁ from h1] at h2
            simp only [Option.map_eq_map, Option.map_some'] at h2
            right
            constructor
            · rw [ho₁]; exact hp
            · rw [← Option.some_inj.mp h2]
          · simp only [getOrder, setOrder] at h2
            rw [List.get?_set_ne _ n.heap (fun hq => hio hq.symm)] at h2
            rw [show n.heap.get? i = some o₁ from h1] at h2
            exact Or.inl (by rw [Option.some_inj.mp h2])
        · simp only [execute_order, hc, if_pos hp] at h2
          rw [h1] at h2
          exact Or.inl (by rw [Option.some_inj.mp h2])
  · intro n i o₁ o₂ h1 h2
    cases hc : getOrder n oid with
    | none =>
        simp only [cancel_order, hc] at h2
        rw [h1] at h2
        exact Or.inl (by rw [Option.some_inj.mp h2])
    | some ord =>
        by_cases hp : ord.status = OrderStatus.PENDING
        · simp only [cancel_order, hc, if_pos hp] at h2
          by_cases hio : i = oid
          · subst hio
            rw [h1] at hc
            have ho₁ : o₁ = ord := Option.some_inj.mp hc
            simp only [getOrder, setOrder, List.get?_set_eq] at h2
            rw [show n.heap.get? i = some o₁ from h1] at h2
            simp only [Option.map_eq_map, Option.map_some'] at h2
            right
            constructor
            · rw [ho₁]; exact hp
            · rw [← Option.some_inj.mp h2]
          · simp only [getOrder, setOrder] at h2
            rw [List.get?_set_ne _ n.heap (fun hq => hio hq.symm)] at h2
            rw [show n.heap.get? i = some o₁ from h1] at h2
            exact Or.inl (by rw [Option.some_inj.mp h2])
        · simp only [cancel_order, hc, if_neg hp] at h2
          rw [h1] at h2
          exact Or.inl (by rw [Option.some_inj.mp h2])

/-- C6 witness: a manager holding a single FILLED order. -/
theorem order_terminal_frozen_witness :
    (getOrder managerFilledEx 0 = some orderFilledEx
      ∧ orderFilledEx.status = OrderStatus.FILLED)
    ∧ execute_order none managerFilledEx 0 (6/5) 0 0 =
      (ExecResult.failure "Order already processed", managerFilledEx)
    ∧ cancel_order managerFilledEx 0 = (false, managerFilledEx) :=
  ⟨⟨rfl, rfl⟩,
    (order_terminal_frozen none managerFilledEx 0 orderFilledEx (6/5) 0 0 rfl
      (Or.inl rfl)).1,
    (order_terminal_frozen none managerFilledEx 0 orderFilledEx (6/5) 0 0 rfl
      (Or.inl rfl)).2.1⟩

theorem getOrder_lt_length {m : OrderManager} {oid : Nat} {o : Order}
    (h : getOrder m oid = some o) : oid < m.heap.length := by
  unfold getOrder at h
  obtain ⟨hlt, -⟩ := List.get?_eq_some.mp h
  exact hlt

/-- Elements drawn from a list filtered by `refPending` reference PENDING
orders. -/
theorem all_pending_of_mem_filter (m' : OrderManager) (l : List Nat) (i : Nat)
    (hi : i ∈ l.filter (refPending m')) :
    ∃ o, getOrder m' i = some o ∧ o.status = OrderStatus.PENDING := by
  have h2 := (List.mem_filter.mp hi).2
  unfold refPending at h2
  cases hg : getOrder m' i with
  | none => rw [hg] at h2; simp at h2
  | some o2 =>
      rw [hg] at h2
      simp only [Option.map_eq_map, Option.map_some', Option.getD_some,
        decide_eq_true_eq] at h2
      exact ⟨o2, rfl, h2⟩

theorem inv_create (m : OrderManager) (symbol side : String) (size : ℚ)
    (order_type : String) (price sl tp : Option ℚ) (h : OMInv m) :
    OMInv (create_order m symbol side size order_type price sl tp).2 := by
  obtain ⟨hnd, hall⟩ := h
  constructor
  · simp only [create_order]
    rw [List.nodup_append]
    refine ⟨hnd, List.nodup_singleton _, ?_⟩
    intro a ha hb
    rw [List.mem_singleton] at hb
    subst hb
    obtain ⟨o, ho, -⟩ := hall _ ha
    exact absurd (getOrder_lt_length ho) (lt_irrefl _)
  · intro oid hmem
    simp only [create_order] at hmem ⊢
    rw [List.mem_append] at hmem
    rcases hmem with hmem | hmem
    · obtain ⟨o, ho, hp⟩ := hall oid hmem
      refine ⟨o, ?_, hp⟩
      show (m.heap ++ _).get? oid = some o
      rw [List.get?_append (getOrder_lt_length ho)]
      exact ho
    · rw [List.mem_singleton] at hmem
      subst hmem
      refine ⟨⟨symbol, side, order_type, size, price, sl, tp, OrderStatus.PENDING⟩,
        ?_, rfl⟩
      exact List.get?_concat_length _ _

theorem inv_execute (sim : Option SlippageSimulator) (m : OrderManager) (oid : Nat)
    (cp vc : ℚ) (now : Nat) (h : OMInv m) :
    OMInv (execute_order sim m oid cp vc now).2 := by
  obtain ⟨hnd, hall⟩ := h
  cases hc : getOrder m oid with
  | none => simpa only [execute_order, hc] using ⟨hnd, hall⟩
  | some ord =>
      by_cases hp : ord.status = OrderStatus.PENDING
      · simp only [execute_order, hc, if_neg (not_not_intro hp)]
        refine ⟨hnd.filter _, ?_⟩
        intro i hi
        exact all_pending_of_mem_filter _ _ i hi
      · simpa only [execute_order, hc, if_pos hp] using ⟨hnd, hall⟩

theorem inv_cancel (m : OrderManager) (oid : Nat) (h : OMInv m) :
    OMInv (cancel_order m oid).2 := by
  obtain ⟨hnd, hall⟩ := h
  cases hc : getOrder m oid with
  | none => simpa only [cancel_order, hc] using ⟨hnd, hall⟩
  | some ord =>
      by_cases hp : ord.status = OrderStatus.PENDING
      · simp only [cancel_order, hc, if_pos hp, setOrder]
        refine ⟨hnd.erase _, ?_⟩
        intro i hi
        have hmem := (List.Nodup.mem_erase_iff hnd).mp hi
        obtain ⟨o, ho, hps⟩ := hall i hmem.2
        refine ⟨o, ?_, hps⟩
        show (m.heap.set oid _).get? i = some o
        rw [List.get?_set_ne _ _ (fun hq => hmem.1 hq.symm)]
        exact ho
      · simpa only [cancel_order, hc, if_neg hp] using ⟨hnd, hall⟩

theorem inv_runOps (sim : Option SlippageSimulator) (ops : List OMOp)
    (m : OrderManager) (h : OMInv m) : OMInv (runOps sim m ops) := by
  induction ops generalizing m with
  | nil => exact h
  | cons op ops ih =>
      cases op with
      | create s sd sz ot p sl tp => exact ih _ (inv_create m s sd sz ot p sl tp h)
      | execute oid cp vc now => exact ih _ (inv_execute sim m oid cp vc now h)
      | cancel oid => exact ih _ (inv_cancel m oid h)

/-- C10: after any sequence of create/execute/cancel calls from a fresh
manager, every id in `self.orders` references a PENDING order, so
`get_pending_orders` returns exactly the referenced orders and all of
them are PENDING; moreover cancelling a PENDING order removes it from
the list (executing rebuilds the list keeping only PENDING references by
construction). -/
theorem pending_orders_all_pending (sim : Option SlippageSimulator) (ops : List OMOp) :
    (∀ oid ∈ (runOps sim mkOrderManager ops).orders,
      ∃ o, getOrder (runOps sim mkOrderManager ops) oid = some o ∧
        o.status = OrderStatus.PENDING)
    ∧ (∀ o ∈ get_pending_orders (runOps sim mkOrderManager ops),
        o.status = OrderStatus.PENDING)
    ∧ get_pending_orders (runOps sim mkOrderManager ops) =
        (runOps sim mkOrderManager ops).orders.filterMap
          (getOrder (runOps sim mkOrderManager ops))
    ∧ (∀ (n : OrderManager) (oid : Nat) (o : Order), n.orders.Nodup →
        getOrder n oid = some o → o.status = OrderStatus.PENDING →
        oid ∉ (cancel_order n oid).2.orders) := by
  have hinv : OMInv (runOps sim mkOrderManager ops) := by
    refine inv_runOps sim ops mkOrderManager ⟨List.nodup_nil, ?_⟩
    intro oid hmem
    cases hmem
  refine ⟨hinv.2, ?_, ?_, ?_⟩
  · intro o ho
    have := (List.mem_filter.mp ho).2
    exact of_decide_eq_true this
  · unfold get_pending_orders
    rw [List.filter_eq_self.mpr]
    intro o ho
    rw [List.mem_filterMap] at ho
    obtain ⟨i, hi, hgi⟩ := ho
    obtain ⟨o', ho', hps'⟩ := hinv.2 i hi
    rw [ho'] at hgi
    rw [decide_eq_true_eq, ← Option.some_inj.mp hgi]
    exact hps'
  · intro n oid o hnd hg hps hmem
    simp only [cancel_order, hg, if_pos hps, setOrder] at hmem
    exact absurd ((List.Nodup.mem_erase_iff hnd).mp hmem).1 (not_not_intro rfl)

/-- C10 witness: after a single create call, the one pending id references
a PENDING order. -/
theorem pending_orders_all_pending_witness :
    ∃ o, getOrder (runOps none mkOrderManager
      [OMOp.create "EURUSD" "BUY" 1000 "MARKET" none none none]) 0 = some o ∧
      o.status = OrderStatus.PENDING :=
  (pending_orders_all_pending none
    [OMOp.create "EURUSD" "BUY" 1000 "MARKET" none none none]).1 0 (by decide)

end Backtest
